import Mathlib

/-!
Verification of the SchedulingAgent repository (`api_modified_new.py`,
`langchain_scheduler.py`).

Modelling conventions, shared by every definition below:
* instants are integers counting seconds; day `0` (seconds `0 .. 86399`)
  is a Monday, so `weekday` agrees with Python's `datetime.weekday()`
  (Monday = 0);
* busy intervals and events carry `(start, end)` pairs of such instants;
* the Google-calendar service is an external collaborator; it is modelled
  by a `Gateway` record of response data and failure flags, and the
  `dateutil` parser by an `Ext` record of parsing oracles;
* Python strings are Lean `String`s; regular-expression operations of the
  source are translated into executable scanners / a derivative matcher.
-/

namespace SchedulingAgent

/-! ### Basic string helpers (Python `str.lower`, `in`, `str.strip`) -/

/-- ASCII lower-casing of one character, as Python `str.lower` acts on the
ASCII inputs occurring in the source. -/
def lowerChar (c : Char) : Char :=
  if 'A' ≤ c ∧ c ≤ 'Z' then Char.ofNat (c.toNat + 32) else c

/-- Python `s.lower()` (ASCII). -/
def lowerStr (s : String) : String :=
  String.mk (s.data.map lowerChar)

/-- Does `needle` occur as a contiguous sublist of `hay`?  This is Python's
`needle in hay` on strings. -/
def containsSub (hay needle : List Char) : Bool :=
  needle.isPrefixOf hay ||
    match hay with
    | [] => false
    | _ :: t => containsSub t needle

/-- Python `needle in hay` for strings. -/
def containsStr (hay needle : String) : Bool :=
  containsSub hay.data needle.data

/-- Python whitespace characters (`str.strip` / regex `\s`, ASCII part). -/
def isPySpace (c : Char) : Bool :=
  c = ' ' || c = '\t' || c = '\n' || c = '\r' || c = '\x0b' || c = '\x0c'

/-- Python `str.strip()`: drop whitespace from both ends. -/
def stripChars (l : List Char) : List Char :=
  ((l.dropWhile isPySpace).reverse.dropWhile isPySpace).reverse

/-! ### Free/busy engine

The sweep shared by `find_conflict_free_slot` (api_modified_new.py,
lines 178-189) and `find_common_free_slot` (langchain_scheduler.py,
lines 78-86): a pointer starts at the window start; for each busy interval
`(s, e)` in order, a free slot `(pointer, s)` is emitted when the gap is at
least `D` seconds, and the pointer advances to `max pointer e`; finally a
trailing slot up to the window end `we` is emitted under the same test. -/

/-- The sweep loop of the source, with minimum duration `D`, window end
`we` and current pointer `p`. -/
def find_gaps (D we : Int) : Int → List (Int × Int) → List (Int × Int)
  | p, [] => if D ≤ we - p then [(p, we)] else []
  | p, (s, e) :: rest =>
    (if D ≤ s - p then [(p, s)] else []) ++ find_gaps D we (max p e) rest

/-- The same sweep emitting every candidate gap, whatever its length
(used to account for the gaps the source drops as too short). -/
def all_gaps (we : Int) : Int → List (Int × Int) → List (Int × Int)
  | p, [] => [(p, we)]
  | p, (s, _e) :: rest => (p, s) :: all_gaps we (max p _e) rest

/-- The successive values taken by the sweep pointer. -/
def ptr_trace : Int → List (Int × Int) → List Int
  | p, [] => [p]
  | p, (_s, e) :: rest => p :: ptr_trace (max p e) rest

/-- Two half-open intervals overlap when some instant lies in both. -/
def overlaps (x y : Int × Int) : Prop :=
  max x.1 y.1 < min x.2 y.2

instance (x y : Int × Int) : Decidable (overlaps x y) := by
  unfold overlaps; infer_instance

/-- Some interval of `l` contains the instant `t`. -/
def coversPt (l : List (Int × Int)) (t : Int) : Prop :=
  ∃ g ∈ l, g.1 ≤ t ∧ t < g.2

instance (l : List (Int × Int)) (t : Int) : Decidable (coversPt l t) := by
  unfold coversPt; infer_instance

theorem find_gaps_eq_filter (D we : Int) :
    ∀ (l : List (Int × Int)) (p : Int),
      find_gaps D we p l = (all_gaps we p l).filter (fun g => decide (D ≤ g.2 - g.1))
  | [], p => by
    simp only [find_gaps, all_gaps, List.filter]
    by_cases h : D ≤ we - p
    · rw [if_pos h, decide_eq_true (by simpa using h)]
    · rw [if_neg h, decide_eq_false (by simpa using h)]
  | (s, e) :: rest, p => by
    simp only [find_gaps, all_gaps, List.filter]
    rw [find_gaps_eq_filter D we rest (max p e)]
    by_cases h : D ≤ s - p
    · rw [if_pos h, decide_eq_true (by simpa using h)]
      simp
    · rw [if_neg h, decide_eq_false (by simpa using h)]
      simp

theorem find_gaps_len (D we : Int) :
    ∀ (l : List (Int × Int)) (p : Int), ∀ g ∈ find_gaps D we p l, D ≤ g.2 - g.1
  | [], p => by
    intro g hg
    simp only [find_gaps] at hg
    split at hg <;> simp_all
  | (s, e) :: rest, p => by
    intro g hg
    simp only [find_gaps] at hg
    rcases List.mem_append.1 hg with h | h
    · split at h <;> simp_all
    · exact find_gaps_len D we rest (max p e) g h

theorem find_gaps_start_ge (D we : Int) :
    ∀ (l : List (Int × Int)) (p : Int), ∀ g ∈ find_gaps D we p l, p ≤ g.1
  | [], p => by
    intro g hg
    simp only [find_gaps] at hg
    split at hg <;> simp_all
  | (s, e) :: rest, p => by
    intro g hg
    simp only [find_gaps] at hg
    rcases List.mem_append.1 hg with h | h
    · split at h <;> simp_all
    · have hrec : max p e ≤ g.1 := find_gaps_start_ge D we rest (max p e) g h
      omega

theorem all_gaps_start_ge (we : Int) :
    ∀ (l : List (Int × Int)) (p : Int), ∀ g ∈ all_gaps we p l, p ≤ g.1
  | [], p => by
    intro g hg
    simp only [all_gaps] at hg
    simp_all
  | (s, e) :: rest, p => by
    intro g hg
    simp only [all_gaps] at hg
    rcases List.mem_cons.1 hg with h | h
    · simp_all
    · have := all_gaps_start_ge we rest (max p e) g h
      omega

theorem find_gaps_end_le (D we : Int) :
    ∀ (l : List (Int × Int)) (p : Int), (∀ b ∈ l, b.1 ≤ we) →
      ∀ g ∈ find_gaps D we p l, g.2 ≤ we
  | [], p => by
    intro _ g hg
    simp only [find_gaps] at hg
    split at hg <;> simp_all
  | (s, e) :: rest, p => by
    intro hb g hg
    simp only [find_gaps] at hg
    rcases List.mem_append.1 hg with h | h
    · have hs : s ≤ we := by
        have := hb (s, e) (List.mem_cons_self _ _)
        simpa using this
      split at h <;> simp_all
    · exact find_gaps_end_le D we rest (max p e)
        (fun b hbm => hb b (List.mem_cons_of_mem _ hbm)) g h

theorem all_gaps_cover (we : Int) :
    ∀ (l : List (Int × Int)) (p : Int), (∀ b ∈ l, b.1 ≤ b.2) →
      ∀ t : Int, p ≤ t → t < we → coversPt l t ∨ coversPt (all_gaps we p l) t
  | [], p => by
    intro _ t hpt htw
    right
    exact ⟨(p, we), by simp [all_gaps], hpt, htw⟩
  | (s, e) :: rest, p => by
    intro hval t hpt htw
    have hse : s ≤ e := by
      have := hval (s, e) (List.mem_cons_self _ _)
      simpa using this
    by_cases hts : t < s
    · right
      exact ⟨(p, s), by simp [all_gaps], hpt, hts⟩
    · by_cases hte : t < e
      · left
        exact ⟨(s, e), List.mem_cons_self _ _, by omega, hte⟩
      · have hrec := all_gaps_cover we rest (max p e)
          (fun b hbm => hval b (List.mem_cons_of_mem _ hbm)) t (by omega) htw
        rcases hrec with h | h
        · left
          obtain ⟨b, hbm, hb⟩ := h
          exact ⟨b, List.mem_cons_of_mem _ hbm, hb⟩
        · right
          obtain ⟨g, hgm, hg⟩ := h
          exact ⟨g, by simp [all_gaps, hgm], hg⟩

theorem ptr_trace_ge :
    ∀ (l : List (Int × Int)) (p : Int), ∀ x ∈ ptr_trace p l, p ≤ x
  | [], p => by
    intro x hx
    simp only [ptr_trace] at hx
    simp_all
  | (s, e) :: rest, p => by
    intro x hx
    simp only [ptr_trace] at hx
    rcases List.mem_cons.1 hx with h | h
    · omega
    · have := ptr_trace_ge rest (max p e) x h
      omega

theorem ptr_trace_pairwise :
    ∀ (l : List (Int × Int)) (p : Int), (ptr_trace p l).Pairwise (· ≤ ·)
  | [], p => by simp [ptr_trace]
  | (s, e) :: rest, p => by
    simp only [ptr_trace]
    refine List.Pairwise.cons ?_ (ptr_trace_pairwise rest (max p e))
    intro x hx
    have := ptr_trace_ge rest (max p e) x hx
    omega

theorem find_gaps_disjoint (D we : Int) :
    ∀ (l : List (Int × Int)) (p : Int),
      l.Pairwise (fun a b => a.1 ≤ b.1) →
      ∀ g ∈ find_gaps D we p l, ∀ b ∈ l, ¬ overlaps g b
  | [], p => by
    intro _ g _ b hb
    simp at hb
  | (s, e) :: rest, p => by
    intro hsort g hg b hb
    have hhead : ∀ b ∈ rest, s ≤ b.1 := by
      intro b' hb'
      exact List.rel_of_pairwise_cons hsort hb'
    have hrest : rest.Pairwise (fun a b => a.1 ≤ b.1) := hsort.of_cons
    simp only [find_gaps] at hg
    rcases List.mem_append.1 hg with h | h
    · have hgps : g = (p, s) := by
        split at h <;> simp_all
      rcases List.mem_cons.1 hb with hb1 | hb2
      · subst hgps hb1
        simp only [overlaps]
        omega
      · have hsb : s ≤ b.1 := hhead b hb2
        subst hgps
        simp only [overlaps]
        omega
    · rcases List.mem_cons.1 hb with hb1 | hb2
      · have hge : max p e ≤ g.1 := find_gaps_start_ge D we rest (max p e) g h
        subst hb1
        simp only [overlaps]
        omega
      · exact find_gaps_disjoint D we rest (max p e) hrest g h b hb2

/-- C3.  For every busy-interval list sorted by start (overlaps and nesting
allowed), the sweep pointer of `find_conflict_free_slot` /
`find_common_free_slot` never regresses, and no emitted free slot overlaps
any busy interval. -/
theorem sweep_monotone_and_disjoint (D ws we : Int) (busy : List (Int × Int))
    (hsort : busy.Pairwise (fun a b => a.1 ≤ b.1)) :
    (ptr_trace ws busy).Pairwise (· ≤ ·) ∧
      ∀ g ∈ find_gaps D we ws busy, ∀ b ∈ busy, ¬ overlaps g b :=
  ⟨ptr_trace_pairwise busy ws, find_gaps_disjoint D we busy ws hsort⟩

/-- Witness for C3 on a sorted busy set with a nested and an overlapping
interval. -/
theorem sweep_monotone_and_disjoint_witness :
    (([(0, 100), (10, 50), (20, 300)] : List (Int × Int)).Pairwise
        (fun a b => a.1 ≤ b.1)) ∧
      ((ptr_trace 0 [(0, 100), (10, 50), (20, 300)]).Pairwise (· ≤ ·) ∧
        ∀ g ∈ find_gaps 3600 604800 0 [(0, 100), (10, 50), (20, 300)],
          ∀ b ∈ ([(0, 100), (10, 50), (20, 300)] : List (Int × Int)), ¬ overlaps g b) :=
  ⟨by decide,
   sweep_monotone_and_disjoint 3600 0 604800 [(0, 100), (10, 50), (20, 300)] (by decide)⟩

/-- C1 (amended).  For a busy set that is sorted, pairwise non-overlapping
and within the window, all emitted slots have length at least `D`, and
every instant of the window is covered by a busy interval, an emitted free
slot, or one of the dropped gaps shorter than `D`; conversely busy
intervals and free slots stay within the window. -/
theorem find_gaps_spec (D ws we : Int) (busy : List (Int × Int))
    (_hD : 0 < D)
    (_hsorted : busy.Pairwise (fun a b => a.2 ≤ b.1))
    (hwin : ∀ b ∈ busy, ws ≤ b.1 ∧ b.1 ≤ b.2 ∧ b.2 ≤ we) :
    (∀ g ∈ find_gaps D we ws busy, D ≤ g.2 - g.1) ∧
      (∀ t : Int, ws ≤ t → t < we →
        coversPt busy t ∨ coversPt (find_gaps D we ws busy) t ∨
          (∃ g ∈ all_gaps we ws busy, g.2 - g.1 < D ∧ g.1 ≤ t ∧ t < g.2)) ∧
      (∀ t : Int, coversPt busy t ∨ coversPt (find_gaps D we ws busy) t →
        ws ≤ t ∧ t < we) := by
  refine ⟨find_gaps_len D we busy ws, ?_, ?_⟩
  · intro t hws hwe
    have hval : ∀ b ∈ busy, b.1 ≤ b.2 := fun b hb => (hwin b hb).2.1
    rcases all_gaps_cover we busy ws hval t hws hwe with h | h
    · exact Or.inl h
    · obtain ⟨g, hgm, hg1, hg2⟩ := h
      by_cases hlen : D ≤ g.2 - g.1
      · refine Or.inr (Or.inl ⟨g, ?_, hg1, hg2⟩)
        rw [find_gaps_eq_filter]
        exact List.mem_filter.2 ⟨hgm, by simpa using hlen⟩
      · exact Or.inr (Or.inr ⟨g, hgm, by omega, hg1, hg2⟩)
  · intro t ht
    rcases ht with ⟨b, hbm, hb1, hb2⟩ | ⟨g, hgm, hg1, hg2⟩
    · have := hwin b hbm
      omega
    · have h1 : ws ≤ g.1 := find_gaps_start_ge D we busy ws g hgm
      have h2 : g.2 ≤ we :=
        find_gaps_end_le D we busy ws (fun b hb => by have := hwin b hb; omega) g hgm
      omega

/-- Witness for C1 (amended): window `[0, 604800]`, busy `[(0,3600), (7200,10800)]`. -/
theorem find_gaps_spec_witness :
    (0 : Int) < 3600 ∧
      (([(0, 3600), (7200, 10800)] : List (Int × Int)).Pairwise (fun a b => a.2 ≤ b.1)) ∧
      (∀ b ∈ ([(0, 3600), (7200, 10800)] : List (Int × Int)),
        (0 : Int) ≤ b.1 ∧ b.1 ≤ b.2 ∧ b.2 ≤ 604800) ∧
      ((∀ g ∈ find_gaps 3600 604800 0 [(0, 3600), (7200, 10800)], 3600 ≤ g.2 - g.1) ∧
        (∀ t : Int, 0 ≤ t → t < 604800 →
          coversPt [(0, 3600), (7200, 10800)] t ∨
            coversPt (find_gaps 3600 604800 0 [(0, 3600), (7200, 10800)]) t ∨
            (∃ g ∈ all_gaps 604800 0 [(0, 3600), (7200, 10800)],
              g.2 - g.1 < 3600 ∧ g.1 ≤ t ∧ t < g.2)) ∧
        (∀ t : Int,
          coversPt [(0, 3600), (7200, 10800)] t ∨
            coversPt (find_gaps 3600 604800 0 [(0, 3600), (7200, 10800)]) t →
          0 ≤ t ∧ t < 604800)) :=
  ⟨by decide, by decide, by decide,
   find_gaps_spec 3600 0 604800 [(0, 3600), (7200, 10800)] (by decide) (by decide) (by decide)⟩

/-- C1 counterexample: with busy `[(0, 5400)]` in window `[0, 7200]` and
minimum duration `3600`, the trailing gap of `1800` seconds is dropped, so
the union of the busy set and the returned free slots does not cover the
window instant `6000`, although the busy set is sorted, non-overlapping
and within the window. -/
theorem find_gaps_union_not_window :
    (([(0, 5400)] : List (Int × Int)).Pairwise (fun a b => a.2 ≤ b.1)) ∧
      (∀ b ∈ ([(0, 5400)] : List (Int × Int)), (0 : Int) ≤ b.1 ∧ b.1 ≤ b.2 ∧ b.2 ≤ 7200) ∧
      (0 : Int) ≤ 6000 ∧ (6000 : Int) < 7200 ∧
      ¬ (coversPt [(0, 5400)] 6000 ∨ coversPt (find_gaps 3600 7200 0 [(0, 5400)]) 6000) := by
  decide

/-! ### The public free-slot operations

`find_conflict_free_slot` (api_modified_new.py, lines 154-195) and
`find_common_free_slot` (langchain_scheduler.py, lines 64-88) collect the
busy pairs of both calendars, sort them with Python's tuple order
(`busy.sort()`), sweep, and report only the head of the free-slot list. -/

/-- Python's tuple comparison on `(start, end)` pairs, used by
`busy.sort()` / `busy_slots.sort()`. -/
def lexLe (a b : Int × Int) : Prop :=
  a.1 < b.1 ∨ (a.1 = b.1 ∧ a.2 ≤ b.2)

instance : DecidableRel lexLe := by
  intro a b
  unfold lexLe
  infer_instance

instance : IsTotal (Int × Int) lexLe :=
  ⟨by intro a b; unfold lexLe; omega⟩

instance : IsTrans (Int × Int) lexLe :=
  ⟨by intro a b c; unfold lexLe; omega⟩

/-- Python's stable sort of the busy pairs (`busy.sort()`), modelled by a
sort producing the list ordered by `lexLe`. -/
def sortLex (l : List (Int × Int)) : List (Int × Int) :=
  l.insertionSort lexLe

/-- The slot-to-string rendering of `find_conflict_free_slot`
(`f"Suggested: {free[0][0]} to {free[0][1]}"`), at the level of abstract
instants. -/
def suggestionStr (g : Int × Int) : String :=
  "Suggested: " ++ toString g.1 ++ " to " ++ toString g.2

/-- Pure core of the `find_conflict_free_slot` tool: window
`[now, now + 7 days]`, minimum gap 3600 seconds, sort, sweep, report the
head slot (or a no-slot message). -/
def find_conflict_free_slot (now : Int) (busy : List (Int × Int)) : String :=
  let sorted := sortLex busy
  let free := find_gaps 3600 (now + 7 * 86400) now sorted
  match free with
  | [] => "No free slot."
  | g :: _ => suggestionStr g

/-- The slot rendering of `find_common_free_slot`
(`f"Suggested free slot: {...} to {...}"`). -/
def commonSuggestionStr (g : Int × Int) : String :=
  "Suggested free slot: " ++ toString g.1 ++ " to " ++ toString g.2

/-- Pure core of `find_common_free_slot` (langchain_scheduler.py).  The
callers in `calendar_tools` pass only the user list, so the defaults
`duration_minutes = 60` and `days_ahead = 7` always apply. -/
def find_common_free_slot (now : Int) (busy : List (Int × Int))
    (duration_minutes : Int := 60) (days_ahead : Int := 7) : String :=
  let sorted := sortLex busy
  let free := find_gaps (duration_minutes * 60) (now + days_ahead * 86400) now sorted
  match free with
  | [] => "No common slot found."
  | g :: _ => commonSuggestionStr g

theorem find_gaps_head_le_rest (D we : Int) :
    ∀ (l : List (Int × Int)) (p : Int), (∀ b ∈ l, b.1 ≤ b.2) →
      ∀ g rest, find_gaps D we p l = g :: rest → ∀ g' ∈ rest, g.2 ≤ g'.1
  | [], p => by
    intro _ g rest hgr g' hg'
    simp only [find_gaps] at hgr
    split at hgr <;> simp_all
  | (s, e) :: t, p => by
    intro hval g rest hgr g' hg'
    have hse : s ≤ e := by
      have := hval (s, e) (List.mem_cons_self _ _)
      simpa using this
    have hvt : ∀ b ∈ t, b.1 ≤ b.2 := fun b hb => hval b (List.mem_cons_of_mem _ hb)
    simp only [find_gaps] at hgr
    split at hgr
    · simp only [List.cons_append, List.nil_append, List.cons.injEq] at hgr
      obtain ⟨hg, hrest⟩ := hgr
      subst hg
      have := find_gaps_start_ge D we t (max p e) g' (hrest ▸ hg')
      simp only
      omega
    · simp only [List.nil_append] at hgr
      exact find_gaps_head_le_rest D we t (max p e) hvt g rest hgr g' hg'

/-- C10.  When the sweep finds at least one qualifying slot, both public
operations report exactly one slot, namely the head of the free list,
which is the chronologically earliest qualifying gap (every other emitted
slot begins no earlier than its end); the defaults fix the minimum
duration at 3600 seconds and the look-ahead at 7 days. -/
theorem free_slot_reports_earliest (now : Int) (busy : List (Int × Int))
    (hval : ∀ b ∈ busy, b.1 ≤ b.2) (g : Int × Int) (rest : List (Int × Int))
    (hfree : find_gaps 3600 (now + 7 * 86400) now (sortLex busy) = g :: rest) :
    find_conflict_free_slot now busy = suggestionStr g ∧
      find_common_free_slot now busy = commonSuggestionStr g ∧
      3600 ≤ g.2 - g.1 ∧
      ∀ g' ∈ rest, g.2 ≤ g'.1 := by
  have hvs : ∀ b ∈ sortLex busy, b.1 ≤ b.2 := by
    intro b hb
    exact hval b ((List.perm_insertionSort lexLe busy).mem_iff.1 hb)
  refine ⟨?_, ?_, ?_, ?_⟩
  · simp only [find_conflict_free_slot, hfree]
  · have h60 : (60 : Int) * 60 = 3600 := by norm_num
    simp only [find_common_free_slot, h60, show (7 : Int) * 86400 = 7 * 86400 from rfl, hfree]
  · exact find_gaps_len 3600 (now + 7 * 86400) (sortLex busy) now g (hfree ▸ List.mem_cons_self _ _)
  · exact find_gaps_head_le_rest 3600 (now + 7 * 86400) (sortLex busy) now hvs g rest hfree

/-- Witness for C10: one busy hour from `now = 0` leaves the single slot
`(3600, 604800)`. -/
theorem free_slot_reports_earliest_witness :
    (∀ b ∈ ([(0, 3600)] : List (Int × Int)), b.1 ≤ b.2) ∧
      find_gaps 3600 (0 + 7 * 86400) 0 (sortLex [(0, 3600)]) = [(3600, 604800)] ∧
      (find_conflict_free_slot 0 [(0, 3600)] = suggestionStr (3600, 604800) ∧
        find_common_free_slot 0 [(0, 3600)] = commonSuggestionStr (3600, 604800) ∧
        3600 ≤ (604800 : Int) - 3600 ∧
        ∀ g' ∈ ([] : List (Int × Int)), (604800 : Int) ≤ g'.1) :=
  ⟨by decide, by decide,
   free_slot_reports_earliest 0 [(0, 3600)] (by decide) (3600, 604800) [] (by decide)⟩

/-! ### Contact resolver

Lines 92-124 of api_modified_new.py: extract every substring matching the
email pattern `[a-zA-Z0-9._%+-]+@[a-zA-Z0-9.-]+\.[a-zA-Z]{2,}` verbatim;
only when none is found, split the raw text on commas or the standalone
word "and" and look the lower-cased fragments up in the static table. -/

/-- Character class `[a-zA-Z0-9._%+-]` (local part of the email pattern). -/
def isLocalChar (c : Char) : Bool :=
  c.isAlpha || c.isDigit || c = '.' || c = '_' || c = '%' || c = '+' || c = '-'

/-- Character class `[a-zA-Z0-9.-]` (domain part of the email pattern). -/
def isDomChar (c : Char) : Bool :=
  c.isAlpha || c.isDigit || c = '.' || c = '-'

/-- Length of the maximal leading `[a-zA-Z]` run. -/
def alphaRunLen (l : List Char) : Nat :=
  (l.takeWhile Char.isAlpha).length

/-- Greedy-with-backtracking match of `[a-zA-Z0-9.-]+\.[a-zA-Z]{2,}`
against the maximal domain-character run `run`: the first component is
tried longest-first, so the split happens at the rightmost dot of `run`
that is followed by at least two letters; the match then extends over the
maximal letter run after that dot.  Returns the match length. -/
def findDotSplit (run : List Char) : Option Nat :=
  (List.range run.length).reverse.findSome? (fun m =>
    if 1 ≤ m ∧ run.getD m ' ' = '.' then
      let al := alphaRunLen (run.drop (m + 1))
      if 2 ≤ al then some (m + 1 + al) else none
    else none)

/-- Try to match the email pattern at the head of `l`; on success return
the matched text and the remaining characters. -/
def emailAt (l : List Char) : Option (List Char × List Char) :=
  let loc := l.takeWhile isLocalChar
  let rest1 := l.dropWhile isLocalChar
  if loc.isEmpty then none
  else
    match rest1 with
    | '@' :: rest2 =>
      let run := rest2.takeWhile isDomChar
      let rest3 := rest2.dropWhile isDomChar
      match findDotSplit run with
      | some endLen => some (loc ++ '@' :: run.take endLen, run.drop endLen ++ rest3)
      | none => none
    | _ => none

/-- Python `re.findall` of the email pattern: try each position left to right and
continue after each non-overlapping match.  The fuel argument (initially
the length of the text) only bounds the recursion; a successful match
always consumes at least one character, so the fuel never runs out. -/
def findEmailsAux : Nat → List Char → List String
  | 0, _ => []
  | _ + 1, [] => []
  | fuel + 1, c :: rest =>
    match emailAt (c :: rest) with
    | some (em, r) => String.mk em :: findEmailsAux fuel r
    | none => findEmailsAux fuel rest

/-- All email-shaped substrings of `l`, in order of discovery. -/
def findEmails (l : List Char) : List String :=
  findEmailsAux l.length l

/-- Regex `\w` membership (used for the `\b` boundaries of `\band\b`). -/
def isWordChar (c : Char) : Bool :=
  c.isAlpha || c.isDigit || c = '_'

/-- Python `re.split(r",|\band\b", raw, flags=re.IGNORECASE)`: scan left to
right; a comma, or the word "and" (any case) flanked by word boundaries,
ends the current fragment.  `prevW` records whether the previously scanned
character was a word character (the left `\b`); `cur` accumulates the
current fragment reversed. -/
def splitAndAux : List Char → Bool → List Char → List (List Char)
  | [], _, cur => [cur.reverse]
  | [c], _, cur =>
    if c = ',' then cur.reverse :: splitAndAux [] false []
    else splitAndAux [] (isWordChar c) (c :: cur)
  | [c, d1], _, cur =>
    if c = ',' then cur.reverse :: splitAndAux [d1] false []
    else splitAndAux [d1] (isWordChar c) (c :: cur)
  | c :: d1 :: d2 :: rest2, prevW, cur =>
    if c = ',' then
      cur.reverse :: splitAndAux (d1 :: d2 :: rest2) false []
    else if lowerChar c == 'a' && !prevW && lowerChar d1 == 'n' && lowerChar d2 == 'd' &&
        (match rest2 with | [] => true | x :: _ => !isWordChar x) then
      cur.reverse :: splitAndAux rest2 true []
    else
      splitAndAux (d1 :: d2 :: rest2) (isWordChar c) (c :: cur)
termination_by l _ _ => l.length
decreasing_by all_goals simp_arith

/-- The static name-to-address table of `parse_user_query`. -/
def email_mapping : List (String × String) :=
  [("akash", "akashmehta556@gmail.com"),
   ("eliana", "eliana@gocadre.ai"),
   ("srilak", "srilakp@pdx.edu"),
   ("faraz", "gurramkondafaraz@gmail.com"),
   ("vlds", "vlds@umich.edu"),
   ("odell", "odelllaxx@gmail.com")]

/-- The attendee-resolution block of `parse_user_query` (lines 93-124):
emails found in the raw text are taken verbatim and the name branch is
skipped entirely; otherwise the text is split, stripped, lower-cased and
looked up, with unmapped fragments silently dropped. -/
def parse_attendees (raw : String) : List String :=
  let found_emails := findEmails raw.data
  if found_emails.isEmpty then
    (splitAndAux raw.data false []).filterMap (fun part =>
      let name := stripChars part
      if name.isEmpty then none
      else email_mapping.lookup (lowerStr (String.mk name)))
  else
    found_emails

/-- C5 counterexample: on the mixed text the resolver returns a single
attendee, not two; the static-table address for "Akash" does not appear. -/
theorem resolve_mixed_not_two :
    parse_attendees "Akash and eliana@x.com" ≠
        ["akashmehta556@gmail.com", "eliana@x.com"] ∧
      (parse_attendees "Akash and eliana@x.com").length = 1 ∧
      "akashmehta556@gmail.com" ∉ parse_attendees "Akash and eliana@x.com" := by
  decide

/-- C5 (amended): because the email branch is exclusive, resolving
"Akash and eliana@x.com" yields exactly one attendee, the address taken
verbatim from the email pattern; the bare name "Akash" is dropped. -/
theorem resolve_mixed_email_only :
    parse_attendees "Akash and eliana@x.com" = ["eliana@x.com"] := by
  decide

/-! ### Intent parser pattern loop

Lines 70-91 of api_modified_new.py: five regular expressions are tried in
order with `re.match` (prefix matching, `re.IGNORECASE`); on the first
match the result fields are updated and, if the query contains the word
"first", `is_first` is set; the loop then breaks.  When no pattern
matches, the defaults (`is_first = False` among them) are kept.

The patterns are translated for recognition only (whether `re.match`
succeeds): capture groups become plain subexpressions and lazy
quantifiers, which do not change the recognised language, become plain
ones.  The matcher is a standard Brzozowski-derivative engine; patterns
carrying a final `$` are matched against the full string, the unanchored
pattern 4 against any prefix.  Inputs are lower-cased before matching,
mirroring `re.IGNORECASE` on the lower-case patterns. -/

/-- Regular expressions over `Char` with predicate atoms. -/
inductive RE where
  | fail : RE
  | eps : RE
  | cls : (Char → Bool) → RE
  | cat : RE → RE → RE
  | alt : RE → RE → RE
  | star : RE → RE

/-- Does the regular expression accept the empty string? -/
def RE.nullable : RE → Bool
  | .fail => false
  | .eps => true
  | .cls _ => false
  | .cat a b => a.nullable && b.nullable
  | .alt a b => a.nullable || b.nullable
  | .star _ => true

/-- Concatenation with eager `fail`/`eps` simplification (keeps the
derivatives small; the recognised language is unchanged). -/
def RE.scat : RE → RE → RE
  | .fail, _ => .fail
  | .eps, b => b
  | _, .fail => .fail
  | a, .eps => a
  | a, b => .cat a b

/-- Alternation with eager `fail` simplification. -/
def RE.salt : RE → RE → RE
  | .fail, b => b
  | a, .fail => a
  | a, b => .alt a b

/-- Brzozowski derivative with respect to one character. -/
def RE.deriv : RE → Char → RE
  | .fail, _ => .fail
  | .eps, _ => .fail
  | .cls p, c => if p c then .eps else .fail
  | .cat a b, c =>
    if a.nullable then RE.salt (RE.scat (a.deriv c) b) (b.deriv c)
    else RE.scat (a.deriv c) b
  | .alt a b, c => RE.salt (a.deriv c) (b.deriv c)
  | .star r, c => RE.scat (r.deriv c) (.star r)

/-- Does the expression accept exactly `s` (a pattern ending in `$`)? -/
def reAccepts (r : RE) (s : List Char) : Bool :=
  (s.foldl RE.deriv r).nullable

/-- Does the expression accept some prefix of `s` (`re.match` without a
final `$`)? -/
def reAcceptsSomePfx : RE → List Char → Bool
  | r, [] => r.nullable
  | r, c :: t => r.nullable || reAcceptsSomePfx (r.deriv c) t

/-- Single-character literal. -/
def chrRE (c : Char) : RE := .cls (· == c)

/-- String literal. -/
def litRE (s : String) : RE := s.data.foldr (fun c r => .cat (chrRE c) r) .eps

/-- Concatenation of a pattern sequence. -/
def catList (l : List RE) : RE := l.foldr RE.cat .eps

/-- Regex `\s` (ASCII). -/
def wsRE : RE := .cls isPySpace

/-- Regex `.` (any character but a newline). -/
def dotRE : RE := .cls (· != '\n')

/-- Regex `r+`. -/
def plusRE (r : RE) : RE := .cat r (.star r)

/-- Regex `r?`. -/
def optRE (r : RE) : RE := .alt r .eps

/-- Regex `\s+`. -/
def wsPlus : RE := plusRE wsRE

/-- Regex `.+` (and the recognition of the lazy `.+?`). -/
def anyPlus : RE := plusRE dotRE

/-- Pattern 1:
`(?:create|schedule)\s+a?\s+meeting\s+(?:with\s+)?(?P<attendees>.+?)(?:\s+at\s+(?P<time>.+?))(?:\s+(?P<summary>.+))?$`. -/
def pattern1 : RE :=
  catList [.alt (litRE "create") (litRE "schedule"), wsPlus, optRE (chrRE 'a'), wsPlus,
    litRE "meeting", wsPlus, optRE (catList [litRE "with", wsPlus]), anyPlus,
    wsPlus, litRE "at", wsPlus, anyPlus, optRE (catList [wsPlus, anyPlus])]

/-- Pattern 2:
`reschedule\s+(?:a\s+)?(?:first\s+)?meeting\s+(?:with\s+)?(?P<attendees>.+?)(?:\s+(?P<old_time>.+?))?\s+to\s+(?P<time>.+?)(?:\s+(?P<summary>.+))?$`. -/
def pattern2 : RE :=
  catList [litRE "reschedule", wsPlus, optRE (catList [litRE "a", wsPlus]),
    optRE (catList [litRE "first", wsPlus]), litRE "meeting", wsPlus,
    optRE (catList [litRE "with", wsPlus]), anyPlus, optRE (catList [wsPlus, anyPlus]),
    wsPlus, litRE "to", wsPlus, anyPlus, optRE (catList [wsPlus, anyPlus])]

/-- Pattern 3:
`cancel\s+(?:a\s+)?meeting\s+(?:with\s+)?(?P<attendees>.+?)(?:\s+(?P<summary>.+))?$`. -/
def pattern3 : RE :=
  catList [litRE "cancel", wsPlus, optRE (catList [litRE "a", wsPlus]),
    litRE "meeting", wsPlus, optRE (catList [litRE "with", wsPlus]), anyPlus,
    optRE (catList [wsPlus, anyPlus])]

/-- Pattern 4 (no `$`, so a prefix match suffices):
`(?P<summary>.+?)\s+with\s+(?P<attendees>.+?)\s+at\s+(?P<time>.+)`. -/
def pattern4 : RE :=
  catList [anyPlus, wsPlus, litRE "with", wsPlus, anyPlus, wsPlus, litRE "at", wsPlus, anyPlus]

/-- Pattern 5:
`reschedule\s+the\s+first\s+meeting\s+(?P<old_time>.+?)\s+to\s+(?P<time>.+?)(?:\s+(?P<summary>.+))?$`. -/
def pattern5 : RE :=
  catList [litRE "reschedule", wsPlus, litRE "the", wsPlus, litRE "first", wsPlus,
    litRE "meeting", wsPlus, anyPlus, wsPlus, litRE "to", wsPlus, anyPlus,
    optRE (catList [wsPlus, anyPlus])]

/-- The ordered pattern list of `parse_user_query`; the boolean records
whether the pattern ends in `$`. -/
def query_patterns : List (RE × Bool) :=
  [(pattern1, true), (pattern2, true), (pattern3, true), (pattern4, false), (pattern5, true)]

/-- Python `re.match(pattern, query, re.IGNORECASE)` viewed as a recogniser on
the lower-cased query. -/
def pyMatches (p : RE × Bool) (lq : String) : Bool :=
  if p.2 then reAccepts p.1 lq.data else reAcceptsSomePfx p.1 lq.data

/-- Index of the first pattern in `ps` matching the lower-cased query. -/
def firstMatchAux (lq : String) : Nat → List (RE × Bool) → Option Nat
  | _, [] => none
  | i, p :: rest => if pyMatches p lq then some i else firstMatchAux lq (i + 1) rest

/-- The pattern loop of `parse_user_query`, restricted to the data the
loop itself computes: which pattern (if any) matched first, and the
resulting `is_first` flag.  The flag is set inside the match branch, so a
query matched by no pattern keeps the default `False`. -/
def parse_user_query_flags (q : String) : Option Nat × Bool :=
  match firstMatchAux (lowerStr q) 0 query_patterns with
  | some i => (some i, containsStr (lowerStr q) "first")
  | none => (none, false)

/-- C6 (amended).  For a query containing the word "first", `is_first`
equals whether some pattern matched: it is forced true whenever any
pattern matched, but stays false when no pattern matched. -/
theorem is_first_iff_matched (q : String)
    (h : containsStr (lowerStr q) "first" = true) :
    (parse_user_query_flags q).2 = (parse_user_query_flags q).1.isSome := by
  unfold parse_user_query_flags
  cases hm : firstMatchAux (lowerStr q) 0 query_patterns <;> simp [h]

/-- Witness for C6 (amended): a query containing "first" that pattern 5
matches, so `is_first` is true. -/
theorem is_first_iff_matched_witness :
    containsStr (lowerStr "reschedule the first meeting tomorrow to 5pm") "first" = true ∧
      (parse_user_query_flags "reschedule the first meeting tomorrow to 5pm").2 =
        (parse_user_query_flags "reschedule the first meeting tomorrow to 5pm").1.isSome :=
  ⟨by decide, is_first_iff_matched "reschedule the first meeting tomorrow to 5pm" (by decide)⟩

/-- C6 counterexample: the query "first" contains the literal word
"first" but matches no pattern, so the parsed intent has
`is_first = false`, contradicting the claim that the flag is forced true
even for queries matched by no pattern. -/
theorem query_first_unmatched_flag_false :
    containsStr (lowerStr "first") "first" = true ∧
      (parse_user_query_flags "first").1 = none ∧
      (parse_user_query_flags "first").2 = false := by
  decide

/-! ### Instants and the day-of-week correction of `create_meeting`

Instants are seconds; day `0` (seconds `0 .. 86399`) is a Monday, so
`weekday` below is Python's `datetime.weekday()` (Monday = 0).  Lines
237-249 of api_modified_new.py scan the seven day names in order; for each
name contained in the lower-cased query whose index differs from the
current weekday of `start`, the instant is advanced by
`(i - weekday + 7) % 7` days (7 when that is 0) and its seconds and
microseconds are zeroed by `start.replace(..., second=0, microsecond=0)`
(microseconds are below the one-second resolution of this model). -/

/-- Python `datetime.weekday()` for an instant in seconds. -/
def weekday (t : Int) : Nat := (t % 604800).toNat / 86400

/-- Seconds since the last midnight. -/
def timeOfDay (t : Int) : Nat := (t % 86400).toNat

/-- Hour of the day. -/
def hourOf (t : Int) : Nat := timeOfDay t / 3600

/-- Minute within the hour. -/
def minuteOf (t : Int) : Nat := timeOfDay t % 3600 / 60

/-- Second within the minute. -/
def secondOf (t : Int) : Nat := timeOfDay t % 60

/-- Midnight of the day containing `t`
(`.replace(hour=0, minute=0, second=0, microsecond=0)`). -/
def dayFloor (t : Int) : Int := t - t % 86400

/-- The `day_names` list of `create_meeting`. -/
def day_names : List String :=
  ["monday", "tuesday", "wednesday", "thursday", "friday", "saturday", "sunday"]

/-- Python `day in query.lower()`. -/
def dayNamed (q : String) (name : String) : Bool := containsStr (lowerStr q) name

/-- One iteration body of the day-correction loop, applied when day `i` is
named and differs from the weekday of `t`. -/
def adjust_step (t : Int) (i : Nat) : Int :=
  let days_ahead : Int := ((i : Int) - (weekday t : Int) + 7) % 7
  let days_ahead := if days_ahead = 0 then 7 else days_ahead
  let t1 := t + days_ahead * 86400
  t1 - t1 % 60

/-- Python `enumerate(day_names)`. -/
def day_name_pairs : List (Nat × String) :=
  [(0, "monday"), (1, "tuesday"), (2, "wednesday"), (3, "thursday"),
   (4, "friday"), (5, "saturday"), (6, "sunday")]

theorem day_name_pairs_eq_enum : day_name_pairs = day_names.enum := by decide

/-- The full day-correction loop of `create_meeting` (lines 238-249). -/
def adjustDays (q : String) (t0 : Int) : Int :=
  day_name_pairs.foldl
    (fun t p => if dayNamed q p.2 && (weekday t != p.1) then adjust_step t p.1 else t) t0

theorem adjust_step_spec (t : Int) (i : Nat) (hi : i < 7) (hne : weekday t ≠ i) :
    weekday (adjust_step t i) = i ∧ t < adjust_step t i ∧
      adjust_step t i ≤ t + 6 * 86400 ∧
      hourOf (adjust_step t i) = hourOf t ∧
      minuteOf (adjust_step t i) = minuteOf t ∧
      secondOf (adjust_step t i) = 0 := by
  simp only [adjust_step, weekday, timeOfDay, hourOf, minuteOf, secondOf] at *
  split <;> omega

/-- C4 (amended).  For a create query naming exactly one weekday, with the
parsed instant on a different weekday, the instant is advanced forward
(1 to 6 days, never backward, never the same day) to the next occurrence
of that weekday; the hour and minute are preserved, but the second is
zeroed by the `replace(second=0, microsecond=0)` call. -/
theorem create_day_adjustment (q : String) (t0 : Int) (i : Nat) (hi : i < 7)
    (hnamed : ∀ p ∈ day_name_pairs, p.1 = i → dayNamed q p.2 = true)
    (honly : ∀ p ∈ day_name_pairs, p.1 ≠ i → dayNamed q p.2 = false)
    (hdiff : weekday t0 ≠ i) :
    weekday (adjustDays q t0) = i ∧
      t0 < adjustDays q t0 ∧
      adjustDays q t0 ≤ t0 + 6 * 86400 ∧
      hourOf (adjustDays q t0) = hourOf t0 ∧
      minuteOf (adjustDays q t0) = minuteOf t0 ∧
      secondOf (adjustDays q t0) = 0 := by
  have hd : (weekday t0 != i) = true := by
    simp only [bne_iff_ne, ne_eq]
    exact hdiff
  interval_cases i
  · have ha := hnamed (0, "monday") (by decide) rfl
    have h1 := honly (1, "tuesday") (by decide) (by decide)
    have h2 := honly (2, "wednesday") (by decide) (by decide)
    have h3 := honly (3, "thursday") (by decide) (by decide)
    have h4 := honly (4, "friday") (by decide) (by decide)
    have h5 := honly (5, "saturday") (by decide) (by decide)
    have h6 := honly (6, "sunday") (by decide) (by decide)
    simp only [adjustDays, day_name_pairs, List.foldl, ha, hd, h1, h2, h3, h4, h5, h6,
      Bool.true_and, Bool.false_and, if_true, if_false, Bool.false_eq_true]
    exact adjust_step_spec t0 0 (by omega) hdiff
  · have ha := hnamed (1, "tuesday") (by decide) rfl
    have h0 := honly (0, "monday") (by decide) (by decide)
    have h2 := honly (2, "wednesday") (by decide) (by decide)
    have h3 := honly (3, "thursday") (by decide) (by decide)
    have h4 := honly (4, "friday") (by decide) (by decide)
    have h5 := honly (5, "saturday") (by decide) (by decide)
    have h6 := honly (6, "sunday") (by decide) (by decide)
    simp only [adjustDays, day_name_pairs, List.foldl, ha, hd, h0, h2, h3, h4, h5, h6,
      Bool.true_and, Bool.false_and, if_true, if_false, Bool.false_eq_true]
    exact adjust_step_spec t0 1 (by omega) hdiff
  · have ha := hnamed (2, "wednesday") (by decide) rfl
    have h0 := honly (0, "monday") (by decide) (by decide)
    have h1 := honly (1, "tuesday") (by decide) (by decide)
    have h3 := honly (3, "thursday") (by decide) (by decide)
    have h4 := honly (4, "friday") (by decide) (by decide)
    have h5 := honly (5, "saturday") (by decide) (by decide)
    have h6 := honly (6, "sunday") (by decide) (by decide)
    simp only [adjustDays, day_name_pairs, List.foldl, ha, hd, h0, h1, h3, h4, h5, h6,
      Bool.true_and, Bool.false_and, if_true, if_false, Bool.false_eq_true]
    exact adjust_step_spec t0 2 (by omega) hdiff
  · have ha := hnamed (3, "thursday") (by decide) rfl
    have h0 := honly (0, "monday") (by decide) (by decide)
    have h1 := honly (1, "tuesday") (by decide) (by decide)
    have h2 := honly (2, "wednesday") (by decide) (by decide)
    have h4 := honly (4, "friday") (by decide) (by decide)
    have h5 := honly (5, "saturday") (by decide) (by decide)
    have h6 := honly (6, "sunday") (by decide) (by decide)
    simp only [adjustDays, day_name_pairs, List.foldl, ha, hd, h0, h1, h2, h4, h5, h6,
      Bool.true_and, Bool.false_and, if_true, if_false, Bool.false_eq_true]
    exact adjust_step_spec t0 3 (by omega) hdiff
  · have ha := hnamed (4, "friday") (by decide) rfl
    have h0 := honly (0, "monday") (by decide) (by decide)
    have h1 := honly (1, "tuesday") (by decide) (by decide)
    have h2 := honly (2, "wednesday") (by decide) (by decide)
    have h3 := honly (3, "thursday") (by decide) (by decide)
    have h5 := honly (5, "saturday") (by decide) (by decide)
    have h6 := honly (6, "sunday") (by decide) (by decide)
    simp only [adjustDays, day_name_pairs, List.foldl, ha, hd, h0, h1, h2, h3, h5, h6,
      Bool.true_and, Bool.false_and, if_true, if_false, Bool.false_eq_true]
    exact adjust_step_spec t0 4 (by omega) hdiff
  · have ha := hnamed (5, "saturday") (by decide) rfl
    have h0 := honly (0, "monday") (by decide) (by decide)
    have h1 := honly (1, "tuesday") (by decide) (by decide)
    have h2 := honly (2, "wednesday") (by decide) (by decide)
    have h3 := honly (3, "thursday") (by decide) (by decide)
    have h4 := honly (4, "friday") (by decide) (by decide)
    have h6 := honly (6, "sunday") (by decide) (by decide)
    simp only [adjustDays, day_name_pairs, List.foldl, ha, hd, h0, h1, h2, h3, h4, h6,
      Bool.true_and, Bool.false_and, if_true, if_false, Bool.false_eq_true]
    exact adjust_step_spec t0 5 (by omega) hdiff
  · have ha := hnamed (6, "sunday") (by decide) rfl
    have h0 := honly (0, "monday") (by decide) (by decide)
    have h1 := honly (1, "tuesday") (by decide) (by decide)
    have h2 := honly (2, "wednesday") (by decide) (by decide)
    have h3 := honly (3, "thursday") (by decide) (by decide)
    have h4 := honly (4, "friday") (by decide) (by decide)
    have h5 := honly (5, "saturday") (by decide) (by decide)
    simp only [adjustDays, day_name_pairs, List.foldl, ha, hd, h0, h1, h2, h3, h4, h5,
      Bool.true_and, Bool.false_and, if_true, if_false, Bool.false_eq_true]
    exact adjust_step_spec t0 6 (by omega) hdiff

/-- Witness for C4 (amended): a Friday instant (`t0 = 408615`, Friday
17:30:15) with a query naming only "saturday" moves to the very next
Saturday. -/
theorem create_day_adjustment_witness :
    (5 : Nat) < 7 ∧
      (∀ p ∈ day_name_pairs, p.1 = 5 → dayNamed "saturday" p.2 = true) ∧
      (∀ p ∈ day_name_pairs, p.1 ≠ 5 → dayNamed "saturday" p.2 = false) ∧
      weekday 408615 ≠ 5 ∧
      (weekday (adjustDays "saturday" 408615) = 5 ∧
        (408615 : Int) < adjustDays "saturday" 408615 ∧
        adjustDays "saturday" 408615 ≤ 408615 + 6 * 86400 ∧
        hourOf (adjustDays "saturday" 408615) = hourOf 408615 ∧
        minuteOf (adjustDays "saturday" 408615) = minuteOf 408615 ∧
        secondOf (adjustDays "saturday" 408615) = 0) :=
  ⟨by decide, by decide, by decide, by decide,
   create_day_adjustment "saturday" 408615 5 (by decide) (by decide) (by decide) (by decide)⟩

/-- C4 counterexample: for the Friday instant 17:30:15 (seconds 15) and a
query naming only "saturday", the adjusted instant is the next Saturday
17:30:00 — the time-of-day is not preserved, because the correction zeroes
the seconds. -/
theorem create_day_adjustment_seconds_lost :
    dayNamed "saturday" "saturday" = true ∧
      weekday 408615 = 4 ∧
      (∀ p ∈ day_name_pairs, p.1 ≠ 5 → dayNamed "saturday" p.2 = false) ∧
      timeOfDay (adjustDays "saturday" 408615) ≠ timeOfDay 408615 := by
  decide

/-! ### Calendar data model and gateway

Events as read from the calendar gateway; the two-user roster
`["user1", "user2"]` is hardcoded in the source.  The gateway is external
(Google Calendar): it is modelled by the calendar state plus a record of
failure flags and server-chosen response data.  A raised gateway call is
modelled by its failure flag; each write call is atomic (it either fully
applies or fails without effect), which is how the source treats the
remote service.  Exception texts in failure messages are abstracted to
fixed descriptions. -/

inductive User where
  | user1 : User
  | user2 : User
deriving DecidableEq

/-- A calendar event (dict with `id`, `summary`, `start`, `end`,
`attendees`, conference link, and the `user_id` tag the source adds when
collecting events). -/
structure GEvent where
  id : String
  summary : String
  start : Int
  endTime : Int
  attendees : List String
  meetLink : Option String
  userId : User
deriving DecidableEq

/-- The two users' calendars. -/
structure CalState where
  u1 : List GEvent
  u2 : List GEvent
deriving DecidableEq

def CalState.events : CalState → User → List GEvent
  | st, .user1 => st.u1
  | st, .user2 => st.u2

/-- External behaviour of the calendar service: which calls raise, and the
data the server fills in on insert. -/
structure Gateway where
  listErr : User → Bool
  insertErr : Bool
  getErr : Bool
  deleteErr : Bool
  updateErr : Bool
  newId : String
  newLink : Option String

/-- External behaviour of `dateutil.parser.parse`: `parseNoDefault`
models the call without a `default=` argument (in `create_meeting`),
`parseWithDefault` the calls passing a default instant (in
`reschedule_meeting`); `none` models a raised `ValueError`.  `now` is the
instant returned by `datetime.now(tz.UTC)`. -/
structure Ext where
  now : Int
  parseNoDefault : String → Option Int
  parseWithDefault : String → Int → Option Int

/-- Gateway call `events().list(timeMin, timeMax, singleEvents=True, orderBy='startTime')`
wrapped in the per-user `try/except` of the source: a raising call
contributes no events; otherwise the user's events starting in the window
are returned in chronological order, tagged with `user_id`. -/
def gw_list (gw : Gateway) (st : CalState) (u : User) (tmin tmax : Int) : List GEvent :=
  if gw.listErr u then []
  else
    (((st.events u).filter (fun e => decide (tmin ≤ e.start) && decide (e.start < tmax))).map
        (fun e => { e with userId := u })).insertionSort (fun a b => a.start ≤ b.start)

/-- Gateway call `events().get(eventId)`: fails when the service raises or the event is
absent from that calendar. -/
def gw_get (gw : Gateway) (st : CalState) (u : User) (eid : String) : Option GEvent :=
  if gw.getErr then none else (st.events u).find? (fun e => e.id == eid)

/-- A successful `events().insert` on user1's calendar. -/
def insert_event (st : CalState) (ev : GEvent) : CalState :=
  { st with u1 := st.u1 ++ [ev] }

/-- A successful `events().delete`. -/
def delete_event (st : CalState) (u : User) (eid : String) : CalState :=
  match u with
  | .user1 => { st with u1 := st.u1.filter (fun e => !(e.id == eid)) }
  | .user2 => { st with u2 := st.u2.filter (fun e => !(e.id == eid)) }

/-- A successful `events().update`. -/
def update_event (st : CalState) (u : User) (eid : String) (ev : GEvent) : CalState :=
  match u with
  | .user1 => { st with u1 := st.u1.map (fun e => if e.id == eid then ev else e) }
  | .user2 => { st with u2 := st.u2.map (fun e => if e.id == eid then ev else e) }

/-- The intent dictionary produced by `parse_user_query` (after attendee
resolution; `summary` is never `None` there, since falsy summaries are
reset to "Meeting"). -/
structure Parsed where
  summary : String
  time : Option String
  old_time : Option String
  attendees : List String
  is_first : Bool

/-! ### Event matcher of `reschedule_meeting` (lines 500-517)

One pass over the events in gateway order; at each event the
attendee-superset-and-summary condition is checked first and then, in the
same iteration, the summary-contains-an-attendee fallback; the first event
passing either check is the target. -/

/-- The primary condition: the event's attendee set contains every intent
attendee, and the event summary equals the intent summary
case-insensitively (or the intent summary is absent). -/
def primary_match (summary? : Option String) (attendees : List String) (ev : GEvent) : Bool :=
  attendees.all (fun a => (ev.attendees.map lowerStr).contains (lowerStr a)) &&
    (match summary? with
     | none => true
     | some s => lowerStr ev.summary == lowerStr s)

/-- The fallback condition: the event summary contains some intent
attendee's address as a substring. -/
def fallback_match (attendees : List String) (ev : GEvent) : Bool :=
  attendees.any (fun a => containsStr (lowerStr ev.summary) (lowerStr a))

/-- The matching loop of `reschedule_meeting`: both conditions are tried
on each event before moving to the next one. -/
def find_target (summary? : Option String) (attendees : List String) :
    List GEvent → Option GEvent
  | [] => none
  | ev :: rest =>
    if primary_match summary? attendees ev then some ev
    else if fallback_match attendees ev then some ev
    else find_target summary? attendees rest

/-- Modelled from the spec: the two-phase matcher the specification
describes, which scans the whole list for a primary match and only then
falls back to a scan for a summary-substring match. -/
def match_spec (summary? : Option String) (attendees : List String)
    (evs : List GEvent) : Option GEvent :=
  match evs.find? (primary_match summary? attendees) with
  | some ev => some ev
  | none => evs.find? (fallback_match attendees)

/-- C2 (amended).  The matcher makes a single pass in gateway order and
returns the first event satisfying the primary or the fallback criterion,
whichever event comes first; in particular, when two events qualify (under
either criterion) the scan-order earlier one wins. -/
theorem find_target_first_qualifying (summary? : Option String)
    (attendees : List String) (evs : List GEvent) :
    find_target summary? attendees evs =
      evs.find? (fun ev => primary_match summary? attendees ev || fallback_match attendees ev) := by
  induction evs with
  | nil => rfl
  | cons ev rest ih =>
    simp only [find_target, List.find?]
    cases hp : primary_match summary? attendees ev <;>
      cases hf : fallback_match attendees ev <;> simp [hp, hf, ih]

/-- Event whose summary contains the intent attendee's address but whose
attendee set does not. -/
def ev_fallback : GEvent :=
  { id := "e1", summary := "meeting with bob@x.com", start := 0, endTime := 3600,
    attendees := [], meetLink := none, userId := .user1 }

/-- Chronologically later event satisfying the primary criterion. -/
def ev_primary : GEvent :=
  { id := "e2", summary := "sync", start := 100, endTime := 3700,
    attendees := ["bob@x.com"], meetLink := none, userId := .user1 }

/-- C2 counterexample: with the earlier event matching only the fallback
criterion and the later event matching the primary criterion, the code
returns the earlier fallback event, while the claimed two-phase policy
(fall back only if no event in the whole list matches the primary
criterion) would return the later one. -/
theorem find_target_not_two_phase :
    find_target none ["bob@x.com"] [ev_fallback, ev_primary] = some ev_fallback ∧
      primary_match none ["bob@x.com"] ev_primary = true ∧
      primary_match none ["bob@x.com"] ev_fallback = false ∧
      fallback_match ["bob@x.com"] ev_fallback = true ∧
      match_spec none ["bob@x.com"] [ev_fallback, ev_primary] = some ev_primary := by
  decide

/-! ### Scanners for the two `re.search` calls of the actions -/

/-- Case-insensitive literal match at the head; returns the remainder. -/
def litCIAt (w : List Char) (l : List Char) : Option (List Char) :=
  if (l.take w.length).map lowerChar = w then some (l.drop w.length) else none

/-- Regex `[A-Za-z0-9_-]` (the event-id class of `cancel_meeting`). -/
def isIdChar (c : Char) : Bool :=
  c.isAlpha || c.isDigit || c = '_' || c = '-'

/-- Try `cancel\s+event\s+([A-Za-z0-9_-]+)` at the head of `l`
(case-insensitively); on success, return the captured id. -/
def cancelIdAt (l : List Char) : Option String :=
  match litCIAt "cancel".data l with
  | none => none
  | some r1 =>
    if (r1.takeWhile isPySpace).isEmpty then none
    else
      match litCIAt "event".data (r1.dropWhile isPySpace) with
      | none => none
      | some r2 =>
        if (r2.takeWhile isPySpace).isEmpty then none
        else
          let run := (r2.dropWhile isPySpace).takeWhile isIdChar
          if run.isEmpty then none else some (String.mk run)

/-- Try `ID\s*:\s*(\w+)` at the head of `l` (case-insensitively). -/
def idColonAt (l : List Char) : Option String :=
  match litCIAt "id".data l with
  | none => none
  | some r1 =>
    match r1.dropWhile isPySpace with
    | ':' :: r2 =>
      let run := (r2.dropWhile isPySpace).takeWhile isWordChar
      if run.isEmpty then none else some (String.mk run)
    | _ => none

/-- Python `re.search`: try the head pattern at each position, left to right. -/
def searchScan (f : List Char → Option String) : List Char → Option String
  | [] => none
  | c :: rest =>
    match f (c :: rest) with
    | some s => some s
    | none => searchScan f rest

/-- Python `re.search(r"cancel\s+event\s+([A-Za-z0-9_-]+)", query, re.IGNORECASE)`. -/
def searchCancelId (q : String) : Option String :=
  searchScan cancelIdAt q.data

/-- Python `re.search(r"ID\s*:\s*(\w+)", query, re.IGNORECASE)`. -/
def searchIdColon (q : String) : Option String :=
  searchScan idColonAt q.data

/-! ### String surgery of the "whenever I'm free" branch -/

/-- Python `s.split(needle)[0]`: the text before the first occurrence. -/
def takeBeforeFirst (needle : List Char) : List Char → List Char
  | [] => []
  | c :: rest =>
    if needle.isPrefixOf (c :: rest) then []
    else c :: takeBeforeFirst needle rest

/-- Helper of `removeAll`: delete every occurrence of the non-empty
needle `d :: ds`. -/
def removeAllAux (d : Char) (ds : List Char) : List Char → List Char
  | [] => []
  | c :: rest =>
    if (d :: ds).isPrefixOf (c :: rest) then removeAllAux d ds (rest.drop ds.length)
    else c :: removeAllAux d ds rest
termination_by l => l.length
decreasing_by
  · simp only [List.length_drop, List.length_cons]
    omega
  · simp_arith

/-- Python `s.replace(needle, "")`. -/
def removeAll (needle : List Char) (l : List Char) : List Char :=
  match needle with
  | [] => l
  | d :: ds => removeAllAux d ds l

/-- Model of `free_slot.split("to")[0].replace("Suggested: ", "").strip()`
(reschedule_meeting, line 410). -/
def extractSlotTime (s : String) : String :=
  String.mk (stripChars (removeAll "Suggested: ".data (takeBeforeFirst "to".data s.data)))

/-! ### The scheduling actions

`create_meeting` (lines 211-286), `cancel_meeting` (lines 289-388) and
`reschedule_meeting` (lines 391-543).  The tool bodies are wrapped in
`try/except Exception` blocks returning strings, so the embeddings are
total functions from the query, the parsed intent, the gateway/parser
oracles and the calendar state to the reply string and the new state;
"never raises" is the totality of these functions.  The intent is passed
as an argument: `parse_user_query` is pure, and whenever it returns,
quantifying over `Parsed` covers its result.  It does not always return:
`result["attendees"]` is initialised to a Python list, and when no
pattern matches — or the first match is pattern 5, which has no
`attendees` group — `raw` is still that list at line 97 and
`re.findall(email_pattern, raw)` raises `TypeError`, which the outer
handlers turn into a failure string.  `parse_raises` below decides that
condition from the query; `cancel_meeting` models the path explicitly.
In `create_meeting` and `reschedule_meeting` the same raise yields their
outer handlers' failure string with no write, one more
reply-and-no-write outcome of the kind their theorems already quantify
over, so it is not modelled separately there. -/

/-- Does `parse_user_query(q)` raise `TypeError` at line 97?  It does
exactly when the attendees field is still the initial Python list: no
pattern matched, or the first matching pattern is pattern 5 (index 4),
whose group dictionary has no `attendees` key (patterns 1-4 all bind a
mandatory `attendees` group to a string). -/
def parse_raises (q : String) : Bool :=
  match firstMatchAux (lowerStr q) 0 query_patterns with
  | none => true
  | some i => i == 4

/-- The busy pairs gathered by `find_conflict_free_slot` from both users'
calendars over the next 7 days (a raising list call contributes none). -/
def gather_busy (gw : Gateway) (st : CalState) (now : Int) : List (Int × Int) :=
  (gw_list gw st .user1 now (now + 7 * 86400) ++
      gw_list gw st .user2 now (now + 7 * 86400)).map (fun e => (e.start, e.endTime))

/-- The `find_conflict_free_slot` tool: gather, sort, sweep, report. -/
def find_conflict_free_slot_tool (gw : Gateway) (st : CalState) (now : Int) : String :=
  find_conflict_free_slot now (gather_busy gw st now)

/-- Tool `create_meeting`: check time and attendees, parse the time, apply the
day-of-week correction, end the event one hour after its start, and issue
a single insert on user1's calendar. -/
def create_meeting (gw : Gateway) (ext : Ext) (q : String) (parsed : Parsed)
    (st : CalState) : String × CalState :=
  match parsed.time with
  | none => ("Failed to create event: No valid time specified.", st)
  | some time_str =>
    if parsed.attendees.isEmpty then
      ("Failed to create event: No valid attendees specified.", st)
    else
      match ext.parseNoDefault time_str with
      | none =>
        ("Failed to create event: Could not parse time '" ++ time_str ++
          "'. Please use a format like 'Saturday at 3pm' or 'July 16th at 6pm'.", st)
      | some parsedStart =>
        let start := adjustDays q parsedStart
        let endT := start + 3600
        let event : GEvent :=
          { id := "", summary := parsed.summary, start := start, endTime := endT,
            attendees := parsed.attendees, meetLink := none, userId := .user1 }
        if gw.insertErr then
          ("Failed to create event: the calendar service rejected the insert.", st)
        else
          let created := { event with id := gw.newId, meetLink := gw.newLink }
          let meet_link := created.meetLink.getD "No Google Meet link generated"
          let dname := day_names.getD (weekday start) ""
          let whom := String.intercalate ", " parsed.attendees
          ("The meeting on " ++ dname ++ " at " ++ toString (hourOf start) ++ ":" ++
            toString (minuteOf start) ++ " with " ++ whom ++
            " has been created. You can join the meeting using this [Google Meet link](" ++
            meet_link ++ ").",
           insert_event st created)

/-- Tool `cancel_meeting`: by-id cancellation reads and deletes on user1's
calendar; otherwise `parse_user_query(query)` runs at line 309 — raising
`TypeError` when `parse_raises` holds, handled to a failure string — then
the attendee check, and then `datetime.now(pytz.UTC)`: `pytz` is never
imported in api_modified_new.py, so line 316 raises `NameError`, which
the outer handler turns into a failure string.  Lines 320-384 (the
day/time filters, the two-user search and the delete) are unreachable and
therefore not modelled. -/
def cancel_meeting (gw : Gateway) (q : String) (parsed : Parsed)
    (st : CalState) : String × CalState :=
  match searchCancelId q with
  | some event_id =>
    (match gw_get gw st .user1 event_id with
     | none => ("Failed to cancel event by ID: the event was not found.", st)
     | some evt =>
       if gw.deleteErr then
         ("Failed to cancel event by ID: the calendar service rejected the delete.", st)
       else
         ("Event '" ++ evt.summary ++ "' (ID: " ++ event_id ++ ") canceled successfully.",
          delete_event st .user1 event_id))
  | none =>
    if parse_raises q then
      ("Failed to cancel event: expected string or bytes-like object", st)
    else if parsed.attendees.isEmpty then
      ("Failed to cancel event: no attendees or event ID in your request.", st)
    else
      ("Failed to cancel event: name 'pytz' is not defined", st)

/-- Lines 403-414 of `reschedule_meeting`: when the parsed intent carries
no new time, line 404 tests `"whenever I'm free" in query.lower()`.  The
needle keeps its capital `I` while the query is lower-cased, so the test
can never succeed and the free-slot branch is dead code in the source; it
is modelled exactly as written.  `inl` is an early-return failure string,
`inr` the time text to parse. -/
def reschedule_resolve_time (gw : Gateway) (st : CalState) (ext : Ext)
    (parsed : Parsed) (q : String) : Sum String String :=
  match parsed.time with
  | some t => .inr t
  | none =>
    if containsStr (lowerStr q) "whenever I'm free" then
      if containsStr (find_conflict_free_slot_tool gw st ext.now) "No free slot" then
        .inl "Failed to reschedule event: No free slots available this week."
      else
        .inr (extractSlotTime (find_conflict_free_slot_tool gw st ext.now))
    else
      .inl "Failed to reschedule event: No valid new time specified. Please provide a time like 'Thursday at 5pm'."

/-- Lines 428-449: reschedule by explicit event id, on user1's calendar. -/
def reschedule_by_id (gw : Gateway) (st : CalState) (event_id : String)
    (new_start new_end : Int) : String × CalState :=
  match gw_get gw st .user1 event_id with
  | none => ("Failed to reschedule event: the event was not found.", st)
  | some event =>
    if gw.updateErr then
      ("Failed to reschedule event: the calendar service rejected the update.", st)
    else
      ("Event rescheduled: (ID: " ++ event_id ++ ")",
       update_event st .user1 event_id { event with start := new_start, endTime := new_end })

/-- Lines 451-461: the search window — the calendar day of the parsed old
time when present and parsable, the next 7 days otherwise. -/
def reschedule_window (ext : Ext) (parsed : Parsed) : Int × Int :=
  match parsed.old_time with
  | some ot =>
    match ext.parseWithDefault ot ext.now with
    | some old_start => (dayFloor old_start, dayFloor old_start + 86400)
    | none => (ext.now, ext.now + 7 * 86400)
  | none => (ext.now, ext.now + 7 * 86400)

/-- Lines 463-480: both users' events in the window, user1's first. -/
def reschedule_events (gw : Gateway) (st : CalState) (w : Int × Int) : List GEvent :=
  gw_list gw st .user1 w.1 w.2 ++ gw_list gw st .user2 w.1 w.2

/-- Lines 482-517: target selection — the first event on the referenced
date for "first meeting" intents (with early-return failures), the
attendee/summary matcher otherwise. -/
def reschedule_select (ext : Ext) (parsed : Parsed) (events : List GEvent) :
    Sum String (Option GEvent) :=
  if parsed.is_first then
    match parsed.old_time with
    | none =>
      .inl "Failed to reschedule event: Please specify the date for 'first meeting' (e.g., 'tomorrow')."
    | some ot =>
      match ext.parseWithDefault ot ext.now with
      | none =>
        .inl "Failed to reschedule event: Could not parse old time for 'first meeting MAGICAL_STRING_FOR_TESTING_ONLY_DO_NOT_USE_IN_PRODUCTION' query."
      | some old_start =>
        .inr (events.find? (fun ev => dayFloor ev.start == dayFloor old_start))
  else
    .inr (find_target (some parsed.summary) parsed.attendees events)

/-- Lines 519-540: report failure when no target matched, or rewrite the
target's start/end and issue a single update on the owning user's
calendar. -/
def reschedule_finish (gw : Gateway) (new_start new_end : Int) (st : CalState)
    (attendees : List String) : Option GEvent → String × CalState
  | none =>
    ("Failed to reschedule event: No matching event found with attendees " ++
      String.intercalate ", " attendees ++ ". Try 'show upcoming events' to get the event ID.", st)
  | some target =>
    if gw.updateErr then
      ("Failed to reschedule event: the calendar service rejected the update.", st)
    else
      ("Event rescheduled: (ID: " ++ target.id ++ ")",
       update_event st target.userId target.id { target with start := new_start, endTime := new_end })

/-- Tool `reschedule_meeting`: resolve the new time (possibly through the
"whenever I'm free" free-slot lookup), parse it with default `now + 1
day`, set the new end one hour later, then reschedule by explicit id, by
first-meeting-on-a-date, or by the attendee/summary matcher, issuing at
most one update. -/
def reschedule_meeting (gw : Gateway) (ext : Ext) (q : String) (parsed : Parsed)
    (st : CalState) : String × CalState :=
  match reschedule_resolve_time gw st ext parsed q with
  | .inl msg => (msg, st)
  | .inr time_str =>
    match ext.parseWithDefault time_str (ext.now + 86400) with
    | none =>
      ("Failed to reschedule event: Could not parse new time '" ++ time_str ++
        "'. Please use a format like 'Thursday at 5pm' or 'July 16th at 6pm'.", st)
    | some new_start =>
      match searchIdColon q with
      | some event_id => reschedule_by_id gw st event_id new_start (new_start + 3600)
      | none =>
        match reschedule_select ext parsed
            (reschedule_events gw st (reschedule_window ext parsed)) with
        | .inl msg => (msg, st)
        | .inr target? =>
          reschedule_finish gw new_start (new_start + 3600) st parsed.attendees target?

theorem create_meeting_write (gw : Gateway) (ext : Ext) (q : String) (parsed : Parsed)
    (st : CalState) :
    (create_meeting gw ext q parsed st).2 = st ∨
      ∃ ev, (create_meeting gw ext q parsed st).2 = insert_event st ev ∧
        ev.endTime = ev.start + 3600 := by
  unfold create_meeting
  split
  · exact Or.inl rfl
  · split
    · exact Or.inl rfl
    · split
      · exact Or.inl rfl
      · split
        · exact Or.inl rfl
        · right
          exact ⟨_, rfl, rfl⟩

theorem cancel_meeting_write (gw : Gateway) (q : String) (parsed : Parsed)
    (st : CalState) :
    (cancel_meeting gw q parsed st).2 = st ∨
      ∃ eid, (cancel_meeting gw q parsed st).2 = delete_event st .user1 eid := by
  unfold cancel_meeting
  split
  · split
    · exact Or.inl rfl
    · split
      · exact Or.inl rfl
      · right
        exact ⟨_, rfl⟩
  · split
    · exact Or.inl rfl
    · split
      · exact Or.inl rfl
      · exact Or.inl rfl

theorem reschedule_finish_write (gw : Gateway) (ns ne : Int) (st : CalState)
    (atts : List String) (target? : Option GEvent) (h : ne = ns + 3600) :
    (reschedule_finish gw ns ne st atts target?).2 = st ∨
      ∃ u eid ev, (reschedule_finish gw ns ne st atts target?).2 = update_event st u eid ev ∧
        ev.endTime = ev.start + 3600 := by
  cases target? with
  | none => exact Or.inl rfl
  | some target =>
    by_cases hue : gw.updateErr
    · left
      simp [reschedule_finish, hue]
    · right
      refine ⟨target.userId, target.id, { target with start := ns, endTime := ne }, ?_, ?_⟩
      · simp [reschedule_finish, hue]
      · simp [h]

theorem reschedule_by_id_write (gw : Gateway) (st : CalState) (event_id : String)
    (ns ne : Int) (h : ne = ns + 3600) :
    (reschedule_by_id gw st event_id ns ne).2 = st ∨
      ∃ u eid ev, (reschedule_by_id gw st event_id ns ne).2 = update_event st u eid ev ∧
        ev.endTime = ev.start + 3600 := by
  cases hg : gw_get gw st User.user1 event_id with
  | none =>
    left
    simp [reschedule_by_id, hg]
  | some event =>
    by_cases hue : gw.updateErr
    · left
      simp [reschedule_by_id, hg, hue]
    · right
      refine ⟨.user1, event_id, { event with start := ns, endTime := ne }, ?_, ?_⟩
      · simp [reschedule_by_id, hg, hue]
      · simp [h]

theorem reschedule_meeting_write (gw : Gateway) (ext : Ext) (q : String) (parsed : Parsed)
    (st : CalState) :
    (reschedule_meeting gw ext q parsed st).2 = st ∨
      ∃ u eid ev, (reschedule_meeting gw ext q parsed st).2 = update_event st u eid ev ∧
        ev.endTime = ev.start + 3600 := by
  unfold reschedule_meeting
  split
  · exact Or.inl rfl
  · split
    · exact Or.inl rfl
    · split
      · exact reschedule_by_id_write gw st _ _ _ rfl
      · split
        · exact Or.inl rfl
        · exact reschedule_finish_write gw _ _ st parsed.attendees _ rfl

/-- C7.  Every scheduling action is a total function returning a reply
string (exceptions of the source are caught by the tools' outer handlers,
modelled by the totality of these embeddings), and no action leaves a
partly applied write: each run either performs exactly one
insert/update/delete or leaves both calendars unchanged, for every query,
parsed intent, gateway behaviour and calendar state. -/
theorem actions_atomic (gw : Gateway) (ext : Ext) (q : String) (parsed : Parsed)
    (st : CalState) :
    ((create_meeting gw ext q parsed st).2 = st ∨
        ∃ ev, (create_meeting gw ext q parsed st).2 = insert_event st ev) ∧
      ((cancel_meeting gw q parsed st).2 = st ∨
        ∃ eid, (cancel_meeting gw q parsed st).2 = delete_event st .user1 eid) ∧
      ((reschedule_meeting gw ext q parsed st).2 = st ∨
        ∃ u eid ev, (reschedule_meeting gw ext q parsed st).2 = update_event st u eid ev) :=
  ⟨(create_meeting_write gw ext q parsed st).imp id (fun ⟨ev, hev, _⟩ => ⟨ev, hev⟩),
   cancel_meeting_write gw q parsed st,
   (reschedule_meeting_write gw ext q parsed st).imp id
     (fun ⟨u, eid, ev, hev, _⟩ => ⟨u, eid, ev, hev⟩)⟩

/-- C8.  Every event inserted by `create_meeting` and every event written
back by `reschedule_meeting` ends exactly one hour (3600 seconds) after
its start; the rewritten times never depend on the original event's
duration, so rescheduling does not preserve it. -/
theorem written_events_one_hour (gw : Gateway) (ext : Ext) (q : String) (parsed : Parsed)
    (st : CalState) :
    ((create_meeting gw ext q parsed st).2 = st ∨
        ∃ ev, (create_meeting gw ext q parsed st).2 = insert_event st ev ∧
          ev.endTime = ev.start + 3600) ∧
      ((reschedule_meeting gw ext q parsed st).2 = st ∨
        ∃ u eid ev, (reschedule_meeting gw ext q parsed st).2 = update_event st u eid ev ∧
          ev.endTime = ev.start + 3600) :=
  ⟨create_meeting_write gw ext q parsed st, reschedule_meeting_write gw ext q parsed st⟩

/-- C9.  For every query without a "cancel event <id>" phrase,
`cancel_meeting` deletes nothing — the state is returned unchanged — and
the reply is a failure string: the `TypeError` message when
`parse_user_query` itself raises on its list-typed attendees field, the
no-attendees message, or the `NameError` message produced because line
316 references the unimported name `pytz`; every one of these aborts
before the gateway search is ever reached. -/
theorem cancel_without_id_no_delete (gw : Gateway) (q : String) (parsed : Parsed)
    (st : CalState) (h : searchCancelId q = none) :
    (cancel_meeting gw q parsed st).2 = st ∧
      ((cancel_meeting gw q parsed st).1 =
          "Failed to cancel event: expected string or bytes-like object" ∨
        (cancel_meeting gw q parsed st).1 =
          "Failed to cancel event: no attendees or event ID in your request." ∨
        (cancel_meeting gw q parsed st).1 =
          "Failed to cancel event: name 'pytz' is not defined") := by
  unfold cancel_meeting
  rw [h]
  cases hp : parse_raises q
  · by_cases hA : parsed.attendees.isEmpty
    · simp [hp, hA]
    · simp [hp, hA]
  · simp [hp]

/-- A gateway with no failures, used to instantiate witnesses. -/
def gw0 : Gateway :=
  { listErr := fun _ => false, insertErr := false, getErr := false,
    deleteErr := false, updateErr := false, newId := "id0", newLink := none }

/-- Empty calendars. -/
def st0 : CalState := { u1 := [], u2 := [] }

/-- A parse result with no attendees. -/
def parsed0 : Parsed :=
  { summary := "Meeting", time := none, old_time := none, attendees := [], is_first := false }

/-- Witness for C9 on the query "cancel meeting with akash". -/
theorem cancel_without_id_no_delete_witness :
    searchCancelId "cancel meeting with akash" = none ∧
      ((cancel_meeting gw0 "cancel meeting with akash" parsed0 st0).2 = st0 ∧
        ((cancel_meeting gw0 "cancel meeting with akash" parsed0 st0).1 =
            "Failed to cancel event: expected string or bytes-like object" ∨
          (cancel_meeting gw0 "cancel meeting with akash" parsed0 st0).1 =
            "Failed to cancel event: no attendees or event ID in your request." ∨
          (cancel_meeting gw0 "cancel meeting with akash" parsed0 st0).1 =
            "Failed to cancel event: name 'pytz' is not defined")) :=
  ⟨by decide,
   cancel_without_id_no_delete gw0 "cancel meeting with akash" parsed0 st0 (by decide)⟩

end SchedulingAgent
